import Mathlib

/-!
Shallow embedding of the `salestax-go` tax resolution engine
(`src/salestax.go`) and verification of its specification claims.

Modelling conventions:
* Go `float32` rates are modelled as `ℚ`.
* Go maps are modelled as association lists (`List (String × _)`) with a
  `find?`-based lookup; Go map iteration order is unspecified, and every
  map-iterating loop in the source is order-independent in its observable
  result, so a fixed list order is a faithful model.
* Go `*T` optional parameters and fields are modelled as `Option _`.
* Fallible functions return `Except String _`; the wrapped Go error
  messages are abbreviated (claims never depend on message text).
* `time.Time` instants are modelled as `Nat` in a lexicographic encoding
  of (year, month, day, hour, minute, second, millisecond); for the UTC
  timestamps produced by parsing the fixed layout
  `"2006-01-02T15:04:05.000Z"`, Go's `time.Before` coincides with `<` on
  this encoding.
* `strings.ToUpper` is modelled by `String.toUpper` (ASCII uppercasing;
  the codes that occur in the data are ASCII).
* The two embedded JSON datasets are loaded lazily by the Go code; the
  model takes the already-decoded tables as fields of `Ctrl`, i.e. it
  describes the behaviour after a successful data load (data-load
  failures belong to the excluded reference-data store).
-/

/-- Go `type TaxExchange string` with its two constant values. -/
inductive TaxExchange where
  | business
  | consumer
deriving DecidableEq, Repr

def TaxExchangeBusiness : TaxExchange := TaxExchange.business

def TaxExchangeConsumer : TaxExchange := TaxExchange.consumer

/-- Go `type TaxArea string` with its three constant values. -/
inductive TaxArea where
  | worldwide
  | national
  | regional
deriving DecidableEq, Repr

def TaxAreaWorldwide : TaxArea := TaxArea.worldwide

def TaxAreaNational : TaxArea := TaxArea.national

def TaxAreaRegional : TaxArea := TaxArea.regional

/-- Go struct `TaxCharge` (salestax.go lines 41-46). -/
structure TaxCharge where
  Direct : Bool
  Reverse : Bool
deriving DecidableEq, Repr

/-- Go struct `SalesTax` (salestax.go lines 27-38).  The Go field `Type`
is named `taxType` here because `Type` is a Lean keyword. -/
structure SalesTax where
  taxType : String
  Rate : ℚ
  Area : TaxArea
  Exchange : TaxExchange
  Charge : TaxCharge
deriving DecidableEq, Repr

/-- Go struct `taxRate` (salestax.go lines 142-147): `TaxType`,
`TaxRate`, optional `PreviousRecordings` map (JSON `before`) and
optional `States` map.  `none` models a nil Go map. -/
inductive taxRate where
  | mk (TaxType : String) (TaxRate : ℚ)
      (PreviousRecordings : Option (List (String × taxRate)))
      (States : Option (List (String × taxRate)))

def taxRate.TaxType : taxRate → String
  | .mk ty _ _ _ => ty

def taxRate.TaxRate : taxRate → ℚ
  | .mk _ r _ _ => r

def taxRate.PreviousRecordings : taxRate → Option (List (String × taxRate))
  | .mk _ _ prev _ => prev

def taxRate.States : taxRate → Option (List (String × taxRate))
  | .mk _ _ _ sts => sts

/-- Go `defaultTaxRate = taxRate{"none", 0, nil, nil}` (line 155). -/
def defaultTaxRate : taxRate := .mk "none" 0 none none

/-- The zero value of the Go struct `taxRate`: what `m[k]` yields for a
key missing from a Go map of `taxRate` (empty string, zero rate, nil
maps). -/
def zeroValueTaxRate : taxRate := .mk "" 0 none none

/-- Lookup in an association-list model of a Go map. -/
def lookupRate (m : List (String × taxRate)) (k : String) : Option taxRate :=
  (m.find? (fun p => p.1 = k)).map (fun p => p.2)

/-- Go struct `Ctrl` (salestax.go lines 49-58), with the two lazily
loaded datasets modelled as already decoded. -/
structure Ctrl where
  OriginCountryCode : Option String
  RegionalTaxEnabled : Bool
  regionCountries : List (String × List String)
  taxRates : List (String × taxRate)

/-! ### Timestamp parsing

Faithful model of Go `time.Parse("2006-01-02T15:04:05.000Z", s)` as used
in `getSalesTaxRate` (line 219-223): 4-digit year, `-`, 2-digit month,
`-`, 2-digit day, `T`, 1-or-2-digit hour (Go's `stdHour` accepts a
single digit), `:`, 2-digit minute, `:`, 2-digit second, `.` or `,`
(Go's `parseNanoseconds` accepts both separators) followed by exactly 3
fraction digits, literal `Z`, end of input; with Go's range checks
(month 1-12, day 1-`daysIn`, hour ≤ 23, minute ≤ 59, second ≤ 59). -/

def digitVal (c : Char) : Nat := c.toNat - '0'.toNat

/-- Go `getnum`: one digit when the next character is not a digit and
`fixed` is false, otherwise exactly two digits. -/
def getnum (fixed : Bool) : List Char → Option (Nat × List Char)
  | [] => none
  | [c] =>
    if c.isDigit then (if fixed then none else some (digitVal c, [])) else none
  | c1 :: c2 :: rest =>
    if c1.isDigit then
      if c2.isDigit then some (digitVal c1 * 10 + digitVal c2, rest)
      else if fixed then none else some (digitVal c1, c2 :: rest)
    else none

/-- Consume one expected literal character. -/
def litChar (c : Char) : List Char → Option (List Char)
  | [] => none
  | x :: rest => if x = c then some rest else none

/-- Go `stdLongYear`: exactly four digits. -/
def getYear4 : List Char → Option (Nat × List Char)
  | a :: b :: c :: d :: rest =>
    if a.isDigit && b.isDigit && c.isDigit && d.isDigit then
      some (((digitVal a * 10 + digitVal b) * 10 + digitVal c) * 10 + digitVal d, rest)
    else none
  | _ => none

/-- Go `parseNanoseconds` for a `.000` layout chunk: separator `.` or
`,` then exactly three digits. -/
def getFrac3 : List Char → Option (Nat × List Char)
  | sep :: a :: b :: c :: rest =>
    if (sep = '.' || sep = ',') && a.isDigit && b.isDigit && c.isDigit then
      some ((digitVal a * 10 + digitVal b) * 10 + digitVal c, rest)
    else none
  | _ => none

/-- Gregorian leap-year rule, as in Go `time.isLeap`. -/
def isLeapYear (y : Nat) : Bool :=
  y % 4 == 0 && (y % 100 != 0 || y % 400 == 0)

/-- Days in a month, as in Go `time.daysIn`. -/
def daysIn (m y : Nat) : Nat :=
  if m == 2 then (if isLeapYear y then 29 else 28)
  else if m == 4 || m == 6 || m == 9 || m == 11 then 30
  else 31

/-- Order-preserving encoding of a UTC calendar instant as a `Nat`
(fields are within their ranges after validation, so this is
lexicographic and agrees with Go `time.Before`). -/
def encodeInstant (y mo d h mi s ms : Nat) : Nat :=
  (((((y * 13 + mo) * 32 + d) * 24 + h) * 60 + mi) * 60 + s) * 1000 + ms

/-- Go `time.Parse("2006-01-02T15:04:05.000Z", str)`, returning the
encoded instant on success and `none` on any parse or range error. -/
def parseTimestamp (str : String) : Option Nat := do
  let s := str.data
  let (y, s) ← getYear4 s
  let s ← litChar '-' s
  let (mo, s) ← getnum true s
  let s ← litChar '-' s
  let (d, s) ← getnum true s
  let s ← litChar 'T' s
  let (h, s) ← getnum false s
  let s ← litChar ':' s
  let (mi, s) ← getnum true s
  let s ← litChar ':' s
  let (sec, s) ← getnum true s
  let (ms, s) ← getFrac3 s
  let s ← litChar 'Z' s
  if s.isEmpty && decide (1 ≤ mo) && decide (mo ≤ 12) && decide (1 ≤ d)
      && decide (d ≤ daysIn mo y) && decide (h ≤ 23) && decide (mi ≤ 59)
      && decide (sec ≤ 59) then
    pure (encodeInstant y mo d h mi sec ms)
  else
    none

/-! ### The resolution engine (salestax.go lines 62-289) -/

/-- Go `(*Ctrl).getTargetArea` (lines 255-278).  The Go loop over the
region map sets `Regional` and breaks at the first region containing
both codes; since it only ever sets the same value, the result is
order-independent and equals an existence check. -/
def getTargetArea (t : Ctrl) (countryCode : String) : TaxArea :=
  match t.OriginCountryCode with
  | none => TaxAreaWorldwide
  | some origin =>
    if origin = countryCode then TaxAreaNational
    else if t.regionCountries.any
        (fun p => p.2.contains origin && p.2.contains countryCode) then
      TaxAreaRegional
    else TaxAreaWorldwide

/-- The loop of Go `getSalesTaxRate` over `rate.PreviousRecordings`
(lines 221-234): `acc` is the pair (`activeDate`, the record stored
under `activeDateKey`).  It fails at the first key that does not parse,
and otherwise keeps the entry with the smallest parsed date strictly
after `now` (`currentDate.Before(date)`; on an exact date tie the
earlier entry is kept, matching one Go map iteration order — date ties
between distinct keys make the Go result iteration-order dependent).
Carrying the record instead of the key models the final
`rate.PreviousRecordings[*activeDateKey]` lookup (line 237). -/
def findActiveLoop (now : Nat) (acc : Option (Nat × taxRate)) :
    List (String × taxRate) → Except String (Option (Nat × taxRate))
  | [] => Except.ok acc
  | (k, r) :: rest =>
    match parseTimestamp k with
    | none => Except.error ("failed to parse date " ++ k)
    | some d =>
      if now < d then
        match acc with
        | none => findActiveLoop now (some (d, r)) rest
        | some (d0, r0) =>
          if d < d0 then findActiveLoop now (some (d, r)) rest
          else findActiveLoop now (some (d0, r0)) rest
      else findActiveLoop now acc rest

/-- Go `(*Ctrl).getSalesTaxRate` (lines 203-242): rate-table lookup with
the no-tax default for unknown countries and historical-supersession
resolution against the current instant `now`. -/
def getSalesTaxRate (t : Ctrl) (now : Nat) (countryCode : String) :
    Except String taxRate :=
  match lookupRate t.taxRates countryCode with
  | none => Except.ok defaultTaxRate
  | some rate =>
    match rate.PreviousRecordings with
    | none => Except.ok rate
    | some prev =>
      match findActiveLoop now none prev with
      | Except.error e => Except.error e
      | Except.ok none => Except.ok rate
      | Except.ok (some (_, r)) => Except.ok r

/-- The state summand of Go `hasTotalSalesTax` (lines 193-198): the
state rate is added only when the state key is present; indexing a nil
`States` map is a miss. -/
def stateContribution (rate : taxRate) (stateCode : Option String) : ℚ :=
  match stateCode with
  | none => 0
  | some sc =>
    match lookupRate (rate.States.getD []) sc with
    | some r => r.TaxRate
    | none => 0

/-- Go `(*Ctrl).hasTotalSalesTax` (lines 180-201). -/
def hasTotalSalesTax (t : Ctrl) (now : Nat) (countryCode : String)
    (stateCode : Option String) : Except String Bool :=
  match getSalesTaxRate t now countryCode.toUpper with
  | Except.error e => Except.error e
  | Except.ok rate =>
    Except.ok
      (decide (0 < rate.TaxRate
        + stateContribution rate (stateCode.map String.toUpper)))

/-- Go `(*Ctrl).getTaxExchangeStatus` (lines 158-178).  `getTargetArea`
is total in the model (its only Go error path is a data-load failure). -/
def getTaxExchangeStatus (t : Ctrl) (now : Nat) (countryCode : String)
    (stateCode : Option String) (taxNumber : Option String) :
    Except String (TaxExchange × Bool) :=
  match hasTotalSalesTax t now countryCode stateCode with
  | Except.error e => Except.error e
  | Except.ok true =>
    match taxNumber with
    | some _ =>
      Except.ok (TaxExchangeBusiness,
        decide (getTargetArea t countryCode ≠ TaxAreaNational))
    | none => Except.ok (TaxExchangeConsumer, false)
  | Except.ok false => Except.ok (TaxExchangeConsumer, true)

/-- The state-rate selection of Go `GetSalesTax` (lines 87-96).  On a
missed `States` lookup the Go code assigns `defaultTaxRate` (line 90)
but then unconditionally overwrites `stateTax` with `&tax` (line 93),
where `tax` is the map's zero value for a missing key — so the value
actually substituted for an unmapped state is `zeroValueTaxRate`, not
`defaultTaxRate`. -/
def composerStateTax (countryTax : taxRate) (stateCode : Option String) :
    taxRate :=
  match countryTax.States, stateCode with
  | some sts, some sc => (lookupRate sts sc).getD zeroValueTaxRate
  | _, _ => defaultTaxRate

/-- The country/state rate selection of Go `GetSalesTax` (lines 72-97):
when the area is Regional, regional taxation is disabled and an origin
is set, the origin country's rate is used and the state component is
forced to `defaultTaxRate`; otherwise the destination's rate and the
per-state selection apply.  `countryCode` and `stateCode` arrive
already uppercased. -/
def composerRates (t : Ctrl) (now : Nat) (countryCode : String)
    (stateCode : Option String) (area : TaxArea) :
    Except String (taxRate × taxRate) :=
  match t.OriginCountryCode with
  | some origin =>
    if area = TaxAreaRegional && !t.RegionalTaxEnabled then
      match getSalesTaxRate t now origin with
      | Except.error e => Except.error e
      | Except.ok countryTax => Except.ok (countryTax, defaultTaxRate)
    else
      match getSalesTaxRate t now countryCode with
      | Except.error e => Except.error e
      | Except.ok countryTax =>
        Except.ok (countryTax, composerStateTax countryTax stateCode)
  | none =>
    match getSalesTaxRate t now countryCode with
    | Except.error e => Except.error e
    | Except.ok countryTax =>
      Except.ok (countryTax, composerStateTax countryTax stateCode)

/-- The tax-type composition of Go `GetSalesTax` (lines 113-120). -/
def composeTaxType (countryTax stateTax : taxRate) : String :=
  if 0 < stateTax.TaxRate then
    if 0 < countryTax.TaxRate then
      countryTax.TaxType ++ "+" ++ stateTax.TaxType
    else stateTax.TaxType
  else countryTax.TaxType

/-- The charge-flag computation of Go `GetSalesTax` (lines 122-126):
flags stay false for the composed type `"none"`, otherwise
`Direct = !isExempt` and `Reverse = isExempt && totalRate > 0`
(`totalRate` here is the nominal total, read before the dead zeroing on
line 130). -/
def composeCharge (countryTax stateTax : taxRate) (isExempt : Bool) :
    TaxCharge :=
  if composeTaxType countryTax stateTax ≠ "none" then
    { Direct := !isExempt,
      Reverse := isExempt && decide (0 < countryTax.TaxRate + stateTax.TaxRate) }
  else { Direct := false, Reverse := false }

/-- The decision assembly of Go `GetSalesTax` (lines 99-139).  The
returned `Rate` is `taxRate := totalRate` captured on line 128, i.e. the
nominal combined rate; the later `totalRate = 0` on exemption (line 130)
is never read again. -/
def composeDecision (targetArea : TaxArea) (countryTax stateTax : taxRate)
    (taxExchange : TaxExchange) (isExempt : Bool) : SalesTax :=
  { taxType := composeTaxType countryTax stateTax,
    Rate := countryTax.TaxRate + stateTax.TaxRate,
    Area := targetArea,
    Exchange := taxExchange,
    Charge := composeCharge countryTax stateTax isExempt }

/-- Go `(*Ctrl).GetSalesTax` (lines 62-140): normalize the codes,
classify the area, select the rate components, consult the exchange
classifier only when some selected component is positive (lines
103-111), and assemble the decision. -/
def GetSalesTax (t : Ctrl) (now : Nat) (countryCode : String)
    (stateCode : Option String) (taxNumber : Option String) :
    Except String SalesTax :=
  match composerRates t now countryCode.toUpper (stateCode.map String.toUpper)
      (getTargetArea t countryCode.toUpper) with
  | Except.error e => Except.error e
  | Except.ok (countryTax, stateTax) =>
    match (if 0 < countryTax.TaxRate ∨ 0 < stateTax.TaxRate then
        getTaxExchangeStatus t now countryCode.toUpper
          (stateCode.map String.toUpper) taxNumber
      else Except.ok (TaxExchangeConsumer, false)) with
    | Except.error e => Except.error e
    | Except.ok (taxExchange, isExempt) =>
      Except.ok (composeDecision (getTargetArea t countryCode.toUpper)
        countryTax stateTax taxExchange isExempt)

/-! ### Record-level predicates (for the data invariants of spec §3) -/

mutual

/-- `P` holds of the type/rate fields of a record and of every record
nested in its history and state maps. -/
def ratePredB (P : String → ℚ → Bool) : taxRate → Bool
  | .mk ty r prev sts => P ty r && ratePredOpt P prev && ratePredOpt P sts

def ratePredOpt (P : String → ℚ → Bool) :
    Option (List (String × taxRate)) → Bool
  | none => true
  | some l => ratePredList P l

def ratePredList (P : String → ℚ → Bool) :
    List (String × taxRate) → Bool
  | [] => true
  | (_, r) :: rest => ratePredB P r && ratePredList P rest

end

/-- Non-negative rate (spec §3: `rate >= 0`). -/
def nonnegRate (_ : String) (r : ℚ) : Bool := decide (0 ≤ r)

/-- The full record invariant of spec §3: `rate >= 0` and a record with
`taxType == "none"` has `rate == 0`. -/
def wellFormedRate (ty : String) (r : ℚ) : Bool :=
  decide (0 ≤ r) && (decide (ty ≠ "none") || decide (r = 0))

/-! ### Sample data (used by witnesses and counterexamples) -/

def vatDE : taxRate := .mk "vat" (mkRat 19 100) none none

def vatFR : taxRate := .mk "vat" (mkRat 20 100) none none

def qstQC : taxRate := .mk "qst" (mkRat 9975 100000) none none

def gstCA : taxRate := .mk "gst" (mkRat 5 100) none (some [("QC", qstQC)])

def sampleRates : List (String × taxRate) :=
  [("DE", vatDE), ("FR", vatFR), ("CA", gstCA)]

def sampleRegions : List (String × List String) := [("EU", ["DE", "FR"])]

/-- Origin DE, regional taxation enabled. -/
def sampleCtrl : Ctrl := ⟨some "DE", true, sampleRegions, sampleRates⟩

/-- Origin DE, regional taxation disabled. -/
def noRegCtrl : Ctrl := ⟨some "DE", false, sampleRegions, sampleRates⟩

/-- A superseded DE record: rate 16% before 2030-01-01, 19% after. -/
def deOld : taxRate := .mk "vat" (mkRat 16 100) none none

def deHist : taxRate :=
  .mk "vat" (mkRat 19 100) (some [("2030-01-01T00:00:00.000Z", deOld)]) none

def histCtrl : Ctrl := ⟨none, false, [], [("DE", deHist)]⟩

/-- A record whose history map has an unparseable key. -/
def badRate : taxRate := .mk "vat" (mkRat 1 10) (some [("oops", vatDE)]) none

def badCtrl : Ctrl := ⟨none, false, [], [("XX", badRate)]⟩

/-! ### Helper lemmas about the history loop -/

theorem findActiveLoop_error_iff (now : Nat) (l : List (String × taxRate)) :
    ∀ acc, (∃ e, findActiveLoop now acc l = Except.error e) ↔
      ∃ p ∈ l, parseTimestamp p.1 = none := by
  induction l with
  | nil => intro acc; simp [findActiveLoop]
  | cons hd tl ih =>
    intro acc
    obtain ⟨k, r⟩ := hd
    cases hk : parseTimestamp k with
    | none =>
      simp only [findActiveLoop, hk, List.mem_cons]
      constructor
      · intro _; exact ⟨(k, r), Or.inl rfl, hk⟩
      · intro _; exact ⟨_, rfl⟩
    | some d =>
      simp only [findActiveLoop, hk]
      have key : ∀ acc2, (∃ e, findActiveLoop now acc2 tl = Except.error e) ↔
          ∃ p ∈ (k, r) :: tl, parseTimestamp p.1 = none := by
        intro acc2
        rw [ih acc2]
        constructor
        · rintro ⟨p, hp, hpn⟩; exact ⟨p, List.mem_cons_of_mem _ hp, hpn⟩
        · rintro ⟨p, hp, hpn⟩
          rcases List.mem_cons.1 hp with h | h
          · rw [h] at hpn; simp [hk] at hpn
          · exact ⟨p, h, hpn⟩
      by_cases hlt : now < d
      · rw [if_pos hlt]
        cases acc with
        | none => dsimp only; exact key _
        | some a =>
          obtain ⟨d0, r0⟩ := a
          dsimp only
          by_cases hdd : d < d0
          · rw [if_pos hdd]; exact key _
          · rw [if_neg hdd]; exact key _
      · rw [if_neg hlt]; exact key _

theorem findActiveLoop_ok_char (now : Nat) (l : List (String × taxRate)) :
    ∀ acc, (∀ p ∈ l, parseTimestamp p.1 ≠ none) →
      (∀ d r, acc = some (d, r) → now < d) →
      ∃ res, findActiveLoop now acc l = Except.ok res ∧
        ((res = acc ∧ ∀ p ∈ l, ∀ dp, parseTimestamp p.1 = some dp → dp ≤ now) ∨
         (∃ d r, res = some (d, r) ∧ now < d ∧
            (acc = some (d, r) ∨ ∃ p ∈ l, p.2 = r ∧ parseTimestamp p.1 = some d) ∧
            (∀ d0 r0, acc = some (d0, r0) → d ≤ d0) ∧
            (∀ p ∈ l, ∀ dp, parseTimestamp p.1 = some dp → now < dp → d ≤ dp))) := by
  induction l with
  | nil =>
    intro acc _ _
    exact ⟨acc, rfl, Or.inl ⟨rfl, by simp⟩⟩
  | cons hd tl ih =>
    intro acc hl hacc
    obtain ⟨k, r⟩ := hd
    have hk' : parseTimestamp k ≠ none := hl (k, r) (List.mem_cons_self _ _)
    have hltl : ∀ p ∈ tl, parseTimestamp p.1 ≠ none := fun p hp =>
      hl p (List.mem_cons_of_mem _ hp)
    cases hk : parseTimestamp k with
    | none => exact absurd hk hk'
    | some d =>
      simp only [findActiveLoop, hk]
      by_cases hlt : now < d
      · rw [if_pos hlt]
        cases acc with
        | none =>
          dsimp only
          obtain ⟨res, hres, hchar⟩ := ih (some (d, r)) hltl
            (by intro d' r' heq; cases heq; exact hlt)
          refine ⟨res, hres, Or.inr ?_⟩
          rcases hchar with ⟨hracc, htall⟩ | ⟨d', r', hres', hd'lt, hsrc, haccmin, hlmin⟩
          · refine ⟨d, r, hracc, hlt, Or.inr ⟨(k, r), List.mem_cons_self _ _, rfl, hk⟩,
              (by intro d0 r0 h; cases h), ?_⟩
            intro p hp dp hdp hnowdp
            rcases List.mem_cons.1 hp with h | h
            · rw [h] at hdp; rw [hk] at hdp; cases hdp; exact le_refl _
            · exact absurd hnowdp (not_lt.2 (htall p h dp hdp))
          · refine ⟨d', r', hres', hd'lt, ?_, (by intro d0 r0 h; cases h), ?_⟩
            · rcases hsrc with heq | ⟨p, hp, hpr, hpd⟩
              · cases heq
                exact Or.inr ⟨(k, r), List.mem_cons_self _ _, rfl, hk⟩
              · exact Or.inr ⟨p, List.mem_cons_of_mem _ hp, hpr, hpd⟩
            · intro p hp dp hdp hnowdp
              rcases List.mem_cons.1 hp with h | h
              · rw [h] at hdp; rw [hk] at hdp; cases hdp
                exact haccmin d r rfl
              · exact hlmin p h dp hdp hnowdp
        | some a =>
          obtain ⟨d0, r0⟩ := a
          have hnd0 : now < d0 := hacc d0 r0 rfl
          dsimp only
          by_cases hdd : d < d0
          · rw [if_pos hdd]
            obtain ⟨res, hres, hchar⟩ := ih (some (d, r)) hltl
              (by intro d' r' heq; cases heq; exact hlt)
            refine ⟨res, hres, Or.inr ?_⟩
            rcases hchar with ⟨hracc, htall⟩ | ⟨d', r', hres', hd'lt, hsrc, haccmin, hlmin⟩
            · refine ⟨d, r, hracc, hlt, Or.inr ⟨(k, r), List.mem_cons_self _ _, rfl, hk⟩,
                ?_, ?_⟩
              · intro da ra heq; cases heq; exact le_of_lt hdd
              · intro p hp dp hdp hnowdp
                rcases List.mem_cons.1 hp with h | h
                · rw [h] at hdp; rw [hk] at hdp; cases hdp; exact le_refl _
                · exact absurd hnowdp (not_lt.2 (htall p h dp hdp))
            · refine ⟨d', r', hres', hd'lt, ?_, ?_, ?_⟩
              · rcases hsrc with heq | ⟨p, hp, hpr, hpd⟩
                · cases heq
                  exact Or.inr ⟨(k, r), List.mem_cons_self _ _, rfl, hk⟩
                · exact Or.inr ⟨p, List.mem_cons_of_mem _ hp, hpr, hpd⟩
              · intro da ra heq; cases heq
                exact le_trans (haccmin d r rfl) (le_of_lt hdd)
              · intro p hp dp hdp hnowdp
                rcases List.mem_cons.1 hp with h | h
                · rw [h] at hdp; rw [hk] at hdp; cases hdp
                  exact haccmin d r rfl
                · exact hlmin p h dp hdp hnowdp
          · rw [if_neg hdd]
            obtain ⟨res, hres, hchar⟩ := ih (some (d0, r0)) hltl
              (by intro d' r' heq; cases heq; exact hnd0)
            refine ⟨res, hres, Or.inr ?_⟩
            rcases hchar with ⟨hracc, htall⟩ | ⟨d', r', hres', hd'lt, hsrc, haccmin, hlmin⟩
            · refine ⟨d0, r0, hracc, hnd0, Or.inl rfl, ?_, ?_⟩
              · intro da ra heq; cases heq; exact le_refl _
              · intro p hp dp hdp hnowdp
                rcases List.mem_cons.1 hp with h | h
                · rw [h] at hdp; rw [hk] at hdp; cases hdp
                  exact not_lt.1 hdd
                · exact absurd hnowdp (not_lt.2 (htall p h dp hdp))
            · refine ⟨d', r', hres', hd'lt, ?_, ?_, ?_⟩
              · rcases hsrc with heq | ⟨p, hp, hpr, hpd⟩
                · cases heq; exact Or.inl rfl
                · exact Or.inr ⟨p, List.mem_cons_of_mem _ hp, hpr, hpd⟩
              · intro da ra heq; cases heq
                exact haccmin d0 r0 rfl
              · intro p hp dp hdp hnowdp
                rcases List.mem_cons.1 hp with h | h
                · rw [h] at hdp; rw [hk] at hdp; cases hdp
                  exact le_trans (haccmin d0 r0 rfl) (not_lt.1 hdd)
                · exact hlmin p h dp hdp hnowdp
      · rw [if_neg hlt]
        obtain ⟨res, hres, hchar⟩ := ih acc hltl hacc
        refine ⟨res, hres, ?_⟩
        rcases hchar with ⟨hracc, htall⟩ | ⟨d', r', hres', hd'lt, hsrc, haccmin, hlmin⟩
        · refine Or.inl ⟨hracc, ?_⟩
          intro p hp dp hdp
          rcases List.mem_cons.1 hp with h | h
          · rw [h] at hdp; rw [hk] at hdp; cases hdp
            exact not_lt.1 hlt
          · exact htall p h dp hdp
        · refine Or.inr ⟨d', r', hres', hd'lt, ?_, haccmin, ?_⟩
          · rcases hsrc with heq | ⟨p, hp, hpr, hpd⟩
            · exact Or.inl heq
            · exact Or.inr ⟨p, List.mem_cons_of_mem _ hp, hpr, hpd⟩
          · intro p hp dp hdp hnowdp
            rcases List.mem_cons.1 hp with h | h
            · rw [h] at hdp; rw [hk] at hdp; cases hdp
              exact absurd hnowdp hlt
            · exact hlmin p h dp hdp hnowdp

/-! ### C1: historical-rate resolution -/

/-- C1: for a country present in the rate table whose record has a
history map with all keys parseable, the resolver returns the top-level
record when no history key is strictly after `now`, and otherwise the
record of an entry whose key timestamp is strictly after `now` and
minimal among all such keys (which covers the single-key instance of
the claim). -/
theorem C1_history_resolution (t : Ctrl) (now : Nat) (cc : String)
    (rate : taxRate) (prev : List (String × taxRate))
    (hc : lookupRate t.taxRates cc = some rate)
    (hpr : rate.PreviousRecordings = some prev)
    (hall : ∀ p ∈ prev, parseTimestamp p.1 ≠ none) :
    ((∀ p ∈ prev, ∀ dp, parseTimestamp p.1 = some dp → dp ≤ now) →
      getSalesTaxRate t now cc = Except.ok rate) ∧
    (∀ p0 ∈ prev, ∀ dp0, parseTimestamp p0.1 = some dp0 → now < dp0 →
      ∃ q ∈ prev, ∃ dq, parseTimestamp q.1 = some dq ∧ now < dq ∧
        getSalesTaxRate t now cc = Except.ok q.2 ∧
        (∀ p ∈ prev, ∀ dp, parseTimestamp p.1 = some dp → now < dp → dq ≤ dp)) := by
  obtain ⟨res, hres, hchar⟩ := findActiveLoop_ok_char now prev none hall
    (by intro d r h; cases h)
  constructor
  · intro htall
    rcases hchar with ⟨hracc, _⟩ | ⟨d, r, _, hd, hsrc, _, _⟩
    · unfold getSalesTaxRate
      simp only [hc, hpr, hres, hracc]
    · rcases hsrc with heq | ⟨p, hp, _, hpd⟩
      · cases heq
      · exact absurd hd (not_lt.2 (htall p hp d hpd))
  · intro p0 hp0 dp0 hdp0 hnow
    rcases hchar with ⟨_, htall⟩ | ⟨d, r, hresr, hd, hsrc, _, hlmin⟩
    · exact absurd hnow (not_lt.2 (htall p0 hp0 dp0 hdp0))
    · rcases hsrc with heq | ⟨q, hq, hqr, hqd⟩
      · cases heq
      · refine ⟨q, hq, d, hqd, hd, ?_, hlmin⟩
        unfold getSalesTaxRate
        simp only [hc, hpr, hres, hresr, hqr]

/-- Witness for C1 on the concrete single-entry history of `histCtrl`:
`T = 72965923200000` encodes 2030-01-01T00:00:00.000Z; querying at `T`
yields the top-level record, querying at instant `0` (strictly before
`T`) yields the superseded record. -/
theorem C1_history_resolution_witness :
    getSalesTaxRate histCtrl 72965923200000 "DE" = Except.ok deHist ∧
    getSalesTaxRate histCtrl 0 "DE" = Except.ok deOld := by
  have hkey : parseTimestamp "2030-01-01T00:00:00.000Z" = some 72965923200000 := by
    decide
  have hall : ∀ p ∈ [("2030-01-01T00:00:00.000Z", deOld)],
      parseTimestamp p.1 ≠ none := by
    intro p hp
    rcases List.mem_singleton.1 hp with rfl
    rw [hkey]
    exact Option.some_ne_none _
  constructor
  · refine (C1_history_resolution histCtrl 72965923200000 "DE" deHist
      [("2030-01-01T00:00:00.000Z", deOld)] (by rfl) (by rfl) hall).1 ?_
    intro p hp dp hdp
    rcases List.mem_singleton.1 hp with rfl
    rw [hkey] at hdp
    cases hdp
    exact le_refl _
  · obtain ⟨q, hq, dq, _, _, hres, _⟩ :=
      (C1_history_resolution histCtrl 0 "DE" deHist
        [("2030-01-01T00:00:00.000Z", deOld)] (by rfl) (by rfl) hall).2
        ("2030-01-01T00:00:00.000Z", deOld) (List.mem_singleton.2 rfl)
        72965923200000 hkey (by decide)
    rcases List.mem_singleton.1 hq with rfl
    exact hres

/-! ### C9: unknown country resolves to the no-tax default -/

/-- C9: a country code absent from the rate table resolves without
error to the sentinel no-tax record (`taxType "none"`, rate 0, no
nested data). -/
theorem C9_unknown_country_default (t : Ctrl) (now : Nat) (cc : String)
    (h : lookupRate t.taxRates cc = none) :
    getSalesTaxRate t now cc = Except.ok defaultTaxRate ∧
    defaultTaxRate.TaxType = "none" ∧ defaultTaxRate.TaxRate = 0 ∧
    defaultTaxRate.PreviousRecordings = none ∧ defaultTaxRate.States = none := by
  refine ⟨?_, rfl, rfl, rfl, rfl⟩
  unfold getSalesTaxRate
  rw [h]

theorem C9_unknown_country_default_witness :
    getSalesTaxRate sampleCtrl 0 "US" = Except.ok defaultTaxRate ∧
    defaultTaxRate.TaxType = "none" ∧ defaultTaxRate.TaxRate = 0 ∧
    defaultTaxRate.PreviousRecordings = none ∧ defaultTaxRate.States = none :=
  C9_unknown_country_default sampleCtrl 0 "US" (by rfl)

/-! ### C8: error behaviour of rate resolution -/

theorem composerRates_error_src {t : Ctrl} {now : Nat} {cc : String}
    {sc : Option String} {area : TaxArea} {e : String}
    (h : composerRates t now cc sc area = Except.error e) :
    ∃ cc2, getSalesTaxRate t now cc2 = Except.error e := by
  unfold composerRates at h
  cases ho : t.OriginCountryCode with
  | none =>
    rw [ho] at h
    cases hg : getSalesTaxRate t now cc with
    | error e2 => simp only [hg] at h; cases h; exact ⟨cc, hg⟩
    | ok ct => simp only [hg] at h; cases h
  | some origin =>
    rw [ho] at h
    by_cases hcond : (decide (area = TaxAreaRegional) && !t.RegionalTaxEnabled) = true
    · simp only [hcond, if_true] at h
      cases hg : getSalesTaxRate t now origin with
      | error e2 => simp only [hg] at h; cases h; exact ⟨origin, hg⟩
      | ok ct => simp only [hg] at h; cases h
    · simp only [hcond, Bool.false_eq_true, if_false] at h
      cases hg : getSalesTaxRate t now cc with
      | error e2 => simp only [hg] at h; cases h; exact ⟨cc, hg⟩
      | ok ct => simp only [hg] at h; cases h

theorem getTaxExchangeStatus_error_src {t : Ctrl} {now : Nat} {cc : String}
    {sc : Option String} {tn : Option String} {e : String}
    (h : getTaxExchangeStatus t now cc sc tn = Except.error e) :
    getSalesTaxRate t now cc.toUpper = Except.error e := by
  unfold getTaxExchangeStatus hasTotalSalesTax at h
  cases hg : getSalesTaxRate t now cc.toUpper with
  | error e2 => simp only [hg] at h; cases h; rfl
  | ok rate =>
    simp only [hg] at h
    cases hb : decide (0 < rate.TaxRate
        + stateContribution rate (sc.map String.toUpper)) with
    | false => simp only [hb] at h; cases h
    | true =>
      simp only [hb] at h
      cases tn with
      | none => simp only at h; cases h
      | some n => simp only at h; cases h

/-- C8: rate resolution fails if and only if the looked-up country is
present in the table and some history key is unparseable; moreover
every error of `GetSalesTax` originates from such a rate-resolution
failure (unknown countries, unknown states and absent tax numbers never
produce one). -/
theorem C8_date_parse_error (t : Ctrl) (now : Nat) (cc : String) :
    ((∃ e, getSalesTaxRate t now cc = Except.error e) ↔
      (∃ rate prev, lookupRate t.taxRates cc = some rate ∧
        rate.PreviousRecordings = some prev ∧
        ∃ p ∈ prev, parseTimestamp p.1 = none)) ∧
    (∀ sc tn e, GetSalesTax t now cc sc tn = Except.error e →
      ∃ cc2 e2, getSalesTaxRate t now cc2 = Except.error e2) := by
  constructor
  · constructor
    · rintro ⟨e, he⟩
      unfold getSalesTaxRate at he
      cases hc : lookupRate t.taxRates cc with
      | none => simp only [hc] at he; cases he
      | some rate =>
        simp only [hc] at he
        cases hpr : rate.PreviousRecordings with
        | none => simp only [hpr] at he; cases he
        | some prev =>
          simp only [hpr] at he
          refine ⟨rate, prev, rfl, hpr, ?_⟩
          cases hl : findActiveLoop now none prev with
          | error e2 => exact (findActiveLoop_error_iff now prev none).1 ⟨e2, hl⟩
          | ok res =>
            simp only [hl] at he
            cases res with
            | none => cases he
            | some a => obtain ⟨d, r⟩ := a; cases he
    · rintro ⟨rate, prev, hc, hpr, hbad⟩
      obtain ⟨e, he⟩ := (findActiveLoop_error_iff now prev none).2 hbad
      refine ⟨e, ?_⟩
      unfold getSalesTaxRate
      simp only [hc, hpr, he]
  · intro sc tn e h
    unfold GetSalesTax at h
    cases hcr : composerRates t now cc.toUpper (sc.map String.toUpper)
        (getTargetArea t cc.toUpper) with
    | error e1 =>
      obtain ⟨cc2, hg⟩ := composerRates_error_src hcr
      exact ⟨cc2, e1, hg⟩
    | ok pr =>
      obtain ⟨ct, st⟩ := pr
      simp only [hcr] at h
      by_cases hcond : 0 < ct.TaxRate ∨ 0 < st.TaxRate
      · rw [if_pos hcond] at h
        cases hex : getTaxExchangeStatus t now cc.toUpper
            (sc.map String.toUpper) tn with
        | error e2 =>
          exact ⟨cc.toUpper.toUpper, e2, getTaxExchangeStatus_error_src hex⟩
        | ok pr2 =>
          obtain ⟨ex, isEx⟩ := pr2
          simp only [hex] at h
          cases h
      · rw [if_neg hcond] at h
        simp only at h
        cases h

theorem upperXX : "XX".toUpper = "XX" := by
  simp [String.toUpper, String.map_eq, Char.toUpper]

theorem C8_date_parse_error_witness :
    ∃ cc2 e2, getSalesTaxRate badCtrl 0 cc2 = Except.error e2 := by
  refine (C8_date_parse_error badCtrl 0 "XX").2 none none
    "failed to parse date oops" ?_
  unfold GetSalesTax
  rw [upperXX]
  rfl

/-! ### Uppercasing lemmas -/

theorem charToUpper_idem (c : Char) : c.toUpper.toUpper = c.toUpper := by
  have hdef : ∀ a : Char,
      a.toUpper = if a.toNat ≥ 97 ∧ a.toNat ≤ 122 then Char.ofNat (a.toNat - 32) else a :=
    fun a => rfl
  by_cases h : c.toNat ≥ 97 ∧ c.toNat ≤ 122
  · have hv : Nat.isValidChar (c.toNat - 32) := Or.inl (by omega)
    have ht : (Char.ofNat (c.toNat - 32)).toNat = c.toNat - 32 := by
      rw [Char.ofNat, dif_pos hv]
      rfl
    conv_lhs => rw [hdef c, if_pos h, hdef _, ht]
    rw [if_neg (by omega), hdef c, if_pos h]
  · conv_lhs => rw [hdef c, if_neg h, hdef c, if_neg h]
    rw [hdef c, if_neg h]

theorem stringToUpper_idem (s : String) : s.toUpper.toUpper = s.toUpper := by
  simp only [String.toUpper, String.map_eq, List.map_map]
  congr 1
  apply List.map_congr_left
  intro c _
  exact charToUpper_idem c

theorem upperDE : "DE".toUpper = "DE" := by
  simp only [String.toUpper, String.map_eq]; decide

theorem upperFR : "FR".toUpper = "FR" := by
  simp only [String.toUpper, String.map_eq]; decide

theorem upperCA : "CA".toUpper = "CA" := by
  simp only [String.toUpper, String.map_eq]; decide

theorem upperUS : "US".toUpper = "US" := by
  simp only [String.toUpper, String.map_eq]; decide

theorem upperON : "ON".toUpper = "ON" := by
  simp only [String.toUpper, String.map_eq]; decide

/-! ### C4: the exchange classifier -/

theorem hasTotalSalesTax_spec (t : Ctrl) (now : Nat) (cc : String)
    (sc : Option String) (r : taxRate)
    (h : getSalesTaxRate t now cc.toUpper = Except.ok r) :
    hasTotalSalesTax t now cc sc =
      Except.ok (decide (0 < r.TaxRate
        + stateContribution r (sc.map String.toUpper))) := by
  unfold hasTotalSalesTax
  simp only [h]

theorem getTaxExchangeStatus_spec (t : Ctrl) (now : Nat) (cc : String)
    (sc : Option String) (tn : Option String) (r : taxRate)
    (h : getSalesTaxRate t now cc.toUpper = Except.ok r) :
    getTaxExchangeStatus t now cc sc tn =
      Except.ok
        (if 0 < r.TaxRate + stateContribution r (sc.map String.toUpper) then
          match tn with
          | some _ =>
            (TaxExchangeBusiness, decide (getTargetArea t cc ≠ TaxAreaNational))
          | none => (TaxExchangeConsumer, false)
        else (TaxExchangeConsumer, true)) := by
  unfold getTaxExchangeStatus
  rw [hasTotalSalesTax_spec t now cc sc r h]
  by_cases hc : 0 < r.TaxRate + stateContribution r (sc.map String.toUpper)
  · rw [if_pos hc]
    simp only [decide_eq_true_eq, hc, decide_True]
    cases tn with
    | none => rfl
    | some n => rfl
  · rw [if_neg hc]
    simp only [decide_eq_false (by exact hc)]

/-- C4: the exchange classifier returns `(Consumer, exempt := true)`
when the destination's combined country-plus-state rate is not
positive, otherwise `(Business, exempt := area ≠ National)` when a tax
number was supplied, and `(Consumer, exempt := false)` otherwise. -/
theorem C4_exchange_classifier (t : Ctrl) (now : Nat) (cc : String)
    (sc : Option String) (tn : Option String) (r : taxRate)
    (h : getSalesTaxRate t now cc.toUpper = Except.ok r) :
    getTaxExchangeStatus t now cc sc tn =
      Except.ok
        (if 0 < r.TaxRate + stateContribution r (sc.map String.toUpper) then
          match tn with
          | some _ =>
            (TaxExchangeBusiness, decide (getTargetArea t cc ≠ TaxAreaNational))
          | none => (TaxExchangeConsumer, false)
        else (TaxExchangeConsumer, true)) :=
  getTaxExchangeStatus_spec t now cc sc tn r h

theorem C4_exchange_classifier_witness :
    getTaxExchangeStatus sampleCtrl 0 "FR" none (some "X") =
      Except.ok (TaxExchangeBusiness, true) := by
  have h : getSalesTaxRate sampleCtrl 0 ("FR".toUpper) = Except.ok vatFR := by
    rw [upperFR]
    rfl
  rw [C4_exchange_classifier sampleCtrl 0 "FR" none (some "X") vatFR h]
  with_unfolding_all rfl

/-! ### Inversion of a successful GetSalesTax call -/

theorem GetSalesTax_ok_inv {t : Ctrl} {now : Nat} {cc : String}
    {sc tn : Option String} {s : SalesTax}
    (h : GetSalesTax t now cc sc tn = Except.ok s) :
    ∃ ct st ex isEx,
      composerRates t now cc.toUpper (sc.map String.toUpper)
        (getTargetArea t cc.toUpper) = Except.ok (ct, st) ∧
      (if 0 < ct.TaxRate ∨ 0 < st.TaxRate then
        getTaxExchangeStatus t now cc.toUpper (sc.map String.toUpper) tn
      else Except.ok (TaxExchangeConsumer, false)) = Except.ok (ex, isEx) ∧
      s = composeDecision (getTargetArea t cc.toUpper) ct st ex isEx := by
  unfold GetSalesTax at h
  cases hcr : composerRates t now cc.toUpper (sc.map String.toUpper)
      (getTargetArea t cc.toUpper) with
  | error e => simp only [hcr] at h; cases h
  | ok pr =>
    obtain ⟨ct, st⟩ := pr
    simp only [hcr] at h
    cases hex : (if 0 < ct.TaxRate ∨ 0 < st.TaxRate then
        getTaxExchangeStatus t now cc.toUpper (sc.map String.toUpper) tn
      else Except.ok (TaxExchangeConsumer, false)) with
    | error e => simp only [hex] at h; cases h
    | ok pr2 =>
      obtain ⟨ex, isEx⟩ := pr2
      simp only [hex] at h
      cases h
      exact ⟨ct, st, ex, isEx, rfl, hex, rfl⟩

/-! ### C2: origin fallback for regional destinations -/

/-- C2: with an origin set, regional taxation disabled and a Regional
destination, the composer takes the origin country's resolved rate as
the country component and forces the state component to the no-tax
record, and any returned decision carries the origin's national rate
(and tax type), not the destination's. -/
theorem C2_regional_origin_fallback (t : Ctrl) (now : Nat) (cc : String)
    (sc tn : Option String) (o : String) (oc : taxRate)
    (ho : t.OriginCountryCode = some o)
    (hreg : t.RegionalTaxEnabled = false)
    (harea : getTargetArea t cc.toUpper = TaxAreaRegional)
    (hoc : getSalesTaxRate t now o = Except.ok oc) :
    composerRates t now cc.toUpper (sc.map String.toUpper)
        (getTargetArea t cc.toUpper) = Except.ok (oc, defaultTaxRate) ∧
    (∀ s, GetSalesTax t now cc sc tn = Except.ok s →
      s.Rate = oc.TaxRate ∧ s.taxType = oc.TaxType) := by
  have hcr : composerRates t now cc.toUpper (sc.map String.toUpper)
      (getTargetArea t cc.toUpper) = Except.ok (oc, defaultTaxRate) := by
    unfold composerRates
    rw [ho, harea, hreg]
    simp only [decide_True, Bool.not_false, Bool.and_self, if_true, hoc]
  refine ⟨hcr, ?_⟩
  intro s hs
  obtain ⟨ct, st, ex, isEx, hcr2, _, hdec⟩ := GetSalesTax_ok_inv hs
  rw [hcr] at hcr2
  cases hcr2
  subst hdec
  constructor
  · show oc.TaxRate + defaultTaxRate.TaxRate = oc.TaxRate
    simp [defaultTaxRate, taxRate.TaxRate]
  · show composeTaxType oc defaultTaxRate = oc.TaxType
    unfold composeTaxType
    rw [if_neg]
    simp [defaultTaxRate, taxRate.TaxRate]

theorem C2_regional_origin_fallback_witness :
    GetSalesTax noRegCtrl 0 "FR" none none =
      Except.ok (SalesTax.mk "vat" (mkRat 19 100) TaxAreaRegional
        TaxExchangeConsumer ⟨true, false⟩) ∧
    (SalesTax.mk "vat" (mkRat 19 100) TaxAreaRegional
        TaxExchangeConsumer ⟨true, false⟩).Rate = vatDE.TaxRate ∧
    (SalesTax.mk "vat" (mkRat 19 100) TaxAreaRegional
        TaxExchangeConsumer ⟨true, false⟩).taxType = vatDE.TaxType := by
  have hgs : GetSalesTax noRegCtrl 0 "FR" none none =
      Except.ok (SalesTax.mk "vat" (mkRat 19 100) TaxAreaRegional
        TaxExchangeConsumer ⟨true, false⟩) := by
    with_unfolding_all rfl
  refine ⟨hgs, (C2_regional_origin_fallback noRegCtrl 0 "FR" none none "DE" vatDE
    rfl rfl ?_ ?_).2 _ hgs⟩
  · rw [upperFR]
    with_unfolding_all rfl
  · rfl

/-! ### C6: the returned rate is the nominal combined rate -/

/-- C6: the `Rate` field of any returned decision is the sum of the
selected country and state components — exemption never zeroes it (the
zeroing of `totalRate` on line 130 of the source is dead: the returned
field was captured on line 128). -/
theorem C6_nominal_rate (t : Ctrl) (now : Nat) (cc : String)
    (sc tn : Option String) (ct st : taxRate) (s : SalesTax)
    (hcr : composerRates t now cc.toUpper (sc.map String.toUpper)
      (getTargetArea t cc.toUpper) = Except.ok (ct, st))
    (hs : GetSalesTax t now cc sc tn = Except.ok s) :
    s.Rate = ct.TaxRate + st.TaxRate := by
  obtain ⟨ct2, st2, ex, isEx, hcr2, _, hdec⟩ := GetSalesTax_ok_inv hs
  rw [hcr] at hcr2
  cases hcr2
  subst hdec
  rfl

theorem C6_nominal_rate_witness :
    (SalesTax.mk "vat" (mkRat 20 100) TaxAreaRegional TaxExchangeBusiness
      ⟨false, true⟩).Rate = vatFR.TaxRate + defaultTaxRate.TaxRate :=
  C6_nominal_rate sampleCtrl 0 "FR" none (some "X") vatFR defaultTaxRate _
    (by with_unfolding_all rfl) (by with_unfolding_all rfl)

/-! ### C7: unmapped state substitutes the zero value, not the no-tax
record -/

/-- C7 (code bug): for destination CA (which has per-state rates) and
the unmapped state ON, the state component actually substituted is the
Go zero value `taxRate{"", 0, nil, nil}` — the assignment of the no-tax
record on line 90 is dead, being unconditionally overwritten by the
map's zero value on line 93 — and it differs from the no-tax record,
although the call still succeeds and the difference is invisible in the
returned decision (a zero-rate state component's type is never read). -/
theorem C7_unmapped_state_zero_value :
    composerStateTax gstCA (some "ON") = zeroValueTaxRate ∧
    zeroValueTaxRate.TaxType = "" ∧
    zeroValueTaxRate.TaxRate = 0 ∧
    defaultTaxRate.TaxType = "none" ∧
    GetSalesTax sampleCtrl 0 "CA" (some "ON") none =
      Except.ok (SalesTax.mk "gst" (mkRat 5 100) TaxAreaWorldwide
        TaxExchangeConsumer ⟨true, false⟩) :=
  ⟨by with_unfolding_all rfl, rfl, rfl, rfl, by with_unfolding_all rfl⟩

/-! ### Predicate preservation through rate resolution -/

theorem ratePredList_mem {P : String → ℚ → Bool} {l : List (String × taxRate)}
    {p : String × taxRate} (hl : ratePredList P l = true) (hp : p ∈ l) :
    ratePredB P p.2 = true := by
  induction l with
  | nil => cases hp
  | cons hd tl ih =>
    obtain ⟨k0, v0⟩ := hd
    rw [ratePredList, Bool.and_eq_true] at hl
    rcases List.mem_cons.1 hp with h | h
    · subst h; exact hl.1
    · exact ih hl.2 h

theorem lookupRate_mem {l : List (String × taxRate)} {k : String} {v : taxRate}
    (h : lookupRate l k = some v) : ∃ p ∈ l, p.2 = v := by
  unfold lookupRate at h
  cases hf : l.find? (fun p => p.1 = k) with
  | none => rw [hf] at h; cases h
  | some p =>
    rw [hf] at h
    cases h
    exact ⟨p, List.mem_of_find?_eq_some hf, rfl⟩

theorem ratePredB_self {P : String → ℚ → Bool} {r : taxRate}
    (h : ratePredB P r = true) : P r.TaxType r.TaxRate = true := by
  cases r with
  | mk ty q prev sts =>
    rw [ratePredB, Bool.and_eq_true, Bool.and_eq_true] at h
    exact h.1.1

theorem ratePredB_states {P : String → ℚ → Bool} {r : taxRate}
    {sts : List (String × taxRate)} (h : ratePredB P r = true)
    (hs : r.States = some sts) : ratePredList P sts = true := by
  cases r with
  | mk ty q prev st =>
    rw [ratePredB, Bool.and_eq_true, Bool.and_eq_true] at h
    have hst : st = some sts := hs
    rw [hst] at h
    exact h.2

theorem ratePredB_prev {P : String → ℚ → Bool} {r : taxRate}
    {prev : List (String × taxRate)} (h : ratePredB P r = true)
    (hp : r.PreviousRecordings = some prev) : ratePredList P prev = true := by
  cases r with
  | mk ty q pr st =>
    rw [ratePredB, Bool.and_eq_true, Bool.and_eq_true] at h
    have hpr : pr = some prev := hp
    rw [hpr] at h
    exact h.1.2

theorem findActiveLoop_mem (now : Nat) (l : List (String × taxRate)) :
    ∀ acc d r, findActiveLoop now acc l = Except.ok (some (d, r)) →
      acc = some (d, r) ∨ ∃ p ∈ l, p.2 = r := by
  induction l with
  | nil =>
    intro acc d r h
    cases h
    exact Or.inl rfl
  | cons hd tl ih =>
    intro acc d r h
    obtain ⟨k, rk⟩ := hd
    unfold findActiveLoop at h
    cases hk : parseTimestamp k with
    | none => simp only [hk] at h; cases h
    | some dk =>
      simp only [hk] at h
      by_cases hlt : now < dk
      · rw [if_pos hlt] at h
        cases acc with
        | none =>
          rcases ih _ _ _ h with hacc | ⟨p, hp, hpv⟩
          · cases hacc
            exact Or.inr ⟨(k, r), List.mem_cons_self _ _, rfl⟩
          · exact Or.inr ⟨p, List.mem_cons_of_mem _ hp, hpv⟩
        | some a =>
          obtain ⟨d0, r0⟩ := a
          dsimp only at h
          by_cases hdd : dk < d0
          · rw [if_pos hdd] at h
            rcases ih _ _ _ h with hacc | ⟨p, hp, hpv⟩
            · cases hacc
              exact Or.inr ⟨(k, r), List.mem_cons_self _ _, rfl⟩
            · exact Or.inr ⟨p, List.mem_cons_of_mem _ hp, hpv⟩
          · rw [if_neg hdd] at h
            rcases ih _ _ _ h with hacc | ⟨p, hp, hpv⟩
            · exact Or.inl hacc
            · exact Or.inr ⟨p, List.mem_cons_of_mem _ hp, hpv⟩
      · rw [if_neg hlt] at h
        rcases ih _ _ _ h with hacc | ⟨p, hp, hpv⟩
        · exact Or.inl hacc
        · exact Or.inr ⟨p, List.mem_cons_of_mem _ hp, hpv⟩

theorem getSalesTaxRate_pred (P : String → ℚ → Bool) (t : Ctrl) (now : Nat)
    (cc : String) (r : taxRate)
    (hP : ratePredList P t.taxRates = true)
    (hnone : P "none" 0 = true)
    (h : getSalesTaxRate t now cc = Except.ok r) :
    ratePredB P r = true := by
  unfold getSalesTaxRate at h
  cases hc : lookupRate t.taxRates cc with
  | none =>
    simp only [hc] at h
    cases h
    simp [defaultTaxRate, ratePredB, ratePredOpt, hnone]
  | some rate =>
    simp only [hc] at h
    obtain ⟨p, hpmem, hpv⟩ := lookupRate_mem hc
    have hrate : ratePredB P rate = true := by
      rw [← hpv]
      exact ratePredList_mem hP hpmem
    cases hpr : rate.PreviousRecordings with
    | none => simp only [hpr] at h; cases h; exact hrate
    | some prev =>
      simp only [hpr] at h
      cases hl : findActiveLoop now none prev with
      | error e => simp only [hl] at h; cases h
      | ok res =>
        simp only [hl] at h
        cases res with
        | none => cases h; exact hrate
        | some a =>
          obtain ⟨d2, r2⟩ := a
          cases h
          rcases findActiveLoop_mem now prev none d2 r hl with hacc | ⟨q, hq, hqv⟩
          · cases hacc
          · rw [← hqv]
            exact ratePredList_mem (ratePredB_prev hrate hpr) hq

theorem composerStateTax_pred (P : String → ℚ → Bool) (sc : Option String)
    (c : taxRate) (hc : ratePredB P c = true)
    (hnone : P "none" 0 = true) (hzero : P "" 0 = true) :
    P (composerStateTax c sc).TaxType (composerStateTax c sc).TaxRate = true := by
  cases hcs : c.States with
  | none =>
    have heq : composerStateTax c sc = defaultTaxRate := by
      unfold composerStateTax
      rw [hcs]
    rw [heq]
    exact hnone
  | some sts =>
    cases sc with
    | none =>
      have heq : composerStateTax c none = defaultTaxRate := by
        unfold composerStateTax
        rw [hcs]
      rw [heq]
      exact hnone
    | some scv =>
      have heq : composerStateTax c (some scv) =
          (lookupRate sts scv).getD zeroValueTaxRate := by
        unfold composerStateTax
        rw [hcs]
      rw [heq]
      cases hl : lookupRate sts scv with
      | none => exact hzero
      | some v =>
        obtain ⟨p, hp, hpv⟩ := lookupRate_mem hl
        rw [Option.getD_some, ← hpv]
        exact ratePredB_self (ratePredList_mem (ratePredB_states hc hcs) hp)

theorem composerRates_pred (P : String → ℚ → Bool) (t : Ctrl) (now : Nat)
    (cc : String) (sc : Option String) (area : TaxArea) (ct st : taxRate)
    (hP : ratePredList P t.taxRates = true)
    (hnone : P "none" 0 = true)
    (hzero : P "" 0 = true)
    (h : composerRates t now cc sc area = Except.ok (ct, st)) :
    ratePredB P ct = true ∧ P st.TaxType st.TaxRate = true := by
  unfold composerRates at h
  cases ho : t.OriginCountryCode with
  | none =>
    simp only [ho] at h
    cases hg : getSalesTaxRate t now cc with
    | error e => simp only [hg] at h; cases h
    | ok c =>
      simp only [hg] at h
      cases h
      have hcp := getSalesTaxRate_pred P t now cc ct hP hnone hg
      exact ⟨hcp, composerStateTax_pred P sc ct hcp hnone hzero⟩
  | some origin =>
    simp only [ho] at h
    by_cases hb : (decide (area = TaxAreaRegional) && !t.RegionalTaxEnabled) = true
    · rw [if_pos hb] at h
      cases hg : getSalesTaxRate t now origin with
      | error e => simp only [hg] at h; cases h
      | ok c =>
        simp only [hg] at h
        cases h
        exact ⟨getSalesTaxRate_pred P t now origin ct hP hnone hg, hnone⟩
    · rw [if_neg hb] at h
      cases hg : getSalesTaxRate t now cc with
      | error e => simp only [hg] at h; cases h
      | ok c =>
        simp only [hg] at h
        cases h
        have hcp := getSalesTaxRate_pred P t now cc ct hP hnone hg
        exact ⟨hcp, composerStateTax_pred P sc ct hcp hnone hzero⟩

/-! ### C5: the charge-flag invariant -/

/-- C5: for rate tables with non-negative rates, the charge flags of
any returned decision are never both true, and are both false only when
the composed tax type is `"none"`. -/
theorem C5_charge_flags (t : Ctrl) (now : Nat) (cc : String)
    (sc tn : Option String) (s : SalesTax)
    (hP : ratePredList nonnegRate t.taxRates = true)
    (hs : GetSalesTax t now cc sc tn = Except.ok s) :
    ¬(s.Charge.Direct = true ∧ s.Charge.Reverse = true) ∧
    ((s.Charge.Direct = false ∧ s.Charge.Reverse = false) →
      s.taxType = "none") := by
  obtain ⟨ct, st, ex, isEx, hcr, hex, hdec⟩ := GetSalesTax_ok_inv hs
  obtain ⟨hct, hst⟩ := composerRates_pred nonnegRate t now cc.toUpper
    (sc.map String.toUpper) (getTargetArea t cc.toUpper) ct st hP
    (by decide) (by decide) hcr
  have hctn : (0:ℚ) ≤ ct.TaxRate := of_decide_eq_true (ratePredB_self hct)
  have hstn : (0:ℚ) ≤ st.TaxRate := of_decide_eq_true hst
  subst hdec
  by_cases hty : composeTaxType ct st = "none"
  · have hch : composeCharge ct st isEx = ⟨false, false⟩ := by
      unfold composeCharge
      rw [if_neg (not_not_intro hty)]
    constructor
    · rintro ⟨h1, _⟩
      rw [show (composeDecision (getTargetArea t cc.toUpper) ct st ex isEx).Charge
        = composeCharge ct st isEx from rfl, hch] at h1
      cases h1
    · intro _
      exact hty
  · have hch : composeCharge ct st isEx =
        ⟨!isEx, isEx && decide (0 < ct.TaxRate + st.TaxRate)⟩ := by
      unfold composeCharge
      rw [if_pos hty]
    constructor
    · rintro ⟨h1, h2⟩
      rw [show (composeDecision (getTargetArea t cc.toUpper) ct st ex isEx).Charge
        = composeCharge ct st isEx from rfl, hch] at h1 h2
      cases isEx with
      | false => simp at h2
      | true => simp at h1
    · rintro ⟨h1, h2⟩
      rw [show (composeDecision (getTargetArea t cc.toUpper) ct st ex isEx).Charge
        = composeCharge ct st isEx from rfl, hch] at h1 h2
      cases isEx with
      | false => simp at h1
      | true =>
        by_cases hcond : 0 < ct.TaxRate ∨ 0 < st.TaxRate
        · have htot : 0 < ct.TaxRate + st.TaxRate := by
            rcases hcond with hc | hc
            · exact add_pos_of_pos_of_nonneg hc hstn
            · exact add_pos_of_nonneg_of_pos hctn hc
          rw [decide_eq_true htot] at h2
          simp at h2
        · rw [if_neg hcond] at hex
          simp at hex

theorem C5_charge_flags_witness :
    ¬((SalesTax.mk "vat" (mkRat 20 100) TaxAreaRegional TaxExchangeBusiness
        ⟨false, true⟩).Charge.Direct = true ∧
      (SalesTax.mk "vat" (mkRat 20 100) TaxAreaRegional TaxExchangeBusiness
        ⟨false, true⟩).Charge.Reverse = true) ∧
    (((SalesTax.mk "vat" (mkRat 20 100) TaxAreaRegional TaxExchangeBusiness
        ⟨false, true⟩).Charge.Direct = false ∧
      (SalesTax.mk "vat" (mkRat 20 100) TaxAreaRegional TaxExchangeBusiness
        ⟨false, true⟩).Charge.Reverse = false) →
      (SalesTax.mk "vat" (mkRat 20 100) TaxAreaRegional TaxExchangeBusiness
        ⟨false, true⟩).taxType = "none") :=
  C5_charge_flags sampleCtrl 0 "FR" none (some "X") _
    (by with_unfolding_all rfl) (by with_unfolding_all rfl)

/-! ### C3: tax number with non-national area -/

theorem wellFormed_extract {ty : String} {q : ℚ}
    (h : wellFormedRate ty q = true) (hq : 0 < q) : ty ≠ "none" := by
  unfold wellFormedRate at h
  rw [Bool.and_eq_true, Bool.or_eq_true, decide_eq_true_eq, decide_eq_true_eq,
    decide_eq_true_eq] at h
  rcases h.2 with h2 | h2
  · exact h2
  · rw [h2] at hq
    exact absurd hq (lt_irrefl 0)

theorem append_plus_ne_none (a b : String) : a ++ "+" ++ b ≠ "none" := by
  intro h
  have hmem : '+' ∈ (a ++ "+" ++ b).data := by
    have hd : (a ++ "+" ++ b).data = (a.data ++ ['+']) ++ b.data := rfl
    rw [hd]
    simp
  rw [h] at hmem
  exact absurd hmem (by decide)

/-- C3 counterexample: destination US is absent from the rate table of
`sampleCtrl`, so although a tax number is supplied and the classified
area (Worldwide) is not National, the returned decision has
`Charge.Reverse = false` (the exchange classifier is not even
consulted when the combined rate is zero, and the `"none"` tax type
keeps both charge flags false), refuting the claim as stated. -/
theorem C3_zero_rate_counterexample :
    GetSalesTax sampleCtrl 0 "US" none (some "X") =
      Except.ok (SalesTax.mk "none" 0 TaxAreaWorldwide TaxExchangeConsumer
        ⟨false, false⟩) ∧
    TaxAreaWorldwide ≠ TaxAreaNational :=
  ⟨by with_unfolding_all rfl, by decide⟩

/-- C3 (amended): when a tax number is supplied, the classified area of
the returned decision is not National, the decision's composed nominal
rate is positive, and the rate-table records satisfy the documented
invariant (rates non-negative, type `"none"` only with rate 0), the
decision has `charge.reverse = true` and `charge.direct = false`. -/
theorem C3_reverse_charge (t : Ctrl) (now : Nat) (cc : String)
    (sc : Option String) (n : String) (s : SalesTax)
    (hP : ratePredList wellFormedRate t.taxRates = true)
    (hs : GetSalesTax t now cc sc (some n) = Except.ok s)
    (harea : s.Area ≠ TaxAreaNational)
    (hrate : 0 < s.Rate) :
    s.Charge.Reverse = true ∧ s.Charge.Direct = false := by
  obtain ⟨ct, st, ex, isEx, hcr, hex, hdec⟩ := GetSalesTax_ok_inv hs
  obtain ⟨hct, hst⟩ := composerRates_pred wellFormedRate t now cc.toUpper
    (sc.map String.toUpper) (getTargetArea t cc.toUpper) ct st hP
    (by decide) (by decide) hcr
  subst hdec
  have hrate' : (0:ℚ) < ct.TaxRate + st.TaxRate := hrate
  have hcond : 0 < ct.TaxRate ∨ 0 < st.TaxRate := by
    by_contra hcn
    push_neg at hcn
    exact absurd hrate' (not_lt.2 (add_nonpos hcn.1 hcn.2))
  rw [if_pos hcond] at hex
  have hisEx : isEx = true := by
    unfold getTaxExchangeStatus at hex
    cases hh : hasTotalSalesTax t now cc.toUpper (sc.map String.toUpper) with
    | error e => simp only [hh] at hex; cases hex
    | ok b =>
      simp only [hh] at hex
      cases b with
      | true =>
        simp only at hex
        cases hex
        exact decide_eq_true harea
      | false =>
        simp only at hex
        cases hex
        rfl
  have hty : composeTaxType ct st ≠ "none" := by
    unfold composeTaxType
    by_cases hst0 : 0 < st.TaxRate
    · rw [if_pos hst0]
      by_cases hct0 : 0 < ct.TaxRate
      · rw [if_pos hct0]
        exact append_plus_ne_none _ _
      · rw [if_neg hct0]
        exact wellFormed_extract hst hst0
    · rw [if_neg hst0]
      have hct0 : 0 < ct.TaxRate := by
        rcases hcond with hc | hc
        · exact hc
        · exact absurd hc hst0
      exact wellFormed_extract (ratePredB_self hct) hct0
  show (composeCharge ct st isEx).Reverse = true ∧
    (composeCharge ct st isEx).Direct = false
  subst hisEx
  unfold composeCharge
  rw [if_pos hty]
  constructor
  · show (true && decide (0 < ct.TaxRate + st.TaxRate)) = true
    rw [decide_eq_true hrate']
    rfl
  · rfl

theorem C3_reverse_charge_witness :
    (SalesTax.mk "vat" (mkRat 20 100) TaxAreaRegional TaxExchangeBusiness
      ⟨false, true⟩).Charge.Reverse = true ∧
    (SalesTax.mk "vat" (mkRat 20 100) TaxAreaRegional TaxExchangeBusiness
      ⟨false, true⟩).Charge.Direct = false :=
  C3_reverse_charge sampleCtrl 0 "FR" none "X" _
    (by with_unfolding_all rfl) (by with_unfolding_all rfl)
    (by decide) (by decide)

/-! ### C10: an unmapped state behaves like no state at all -/

theorem stateContribution_zero {r : taxRate} {sts : List (String × taxRate)}
    {x : String} (h2 : r.States = some sts) (h3 : lookupRate sts x = none) :
    stateContribution r (some x) = 0 := by
  simp only [stateContribution, h2, Option.getD_some, h3]

theorem composeTaxType_zero_rate (r st : taxRate) (h : st.TaxRate = 0) :
    composeTaxType r st = r.TaxType := by
  unfold composeTaxType
  rw [h, if_neg (lt_irrefl 0)]

theorem composeDecision_zero_default (a : TaxArea) (r : taxRate)
    (ex : TaxExchange) (b : Bool) :
    composeDecision a r zeroValueTaxRate ex b =
    composeDecision a r defaultTaxRate ex b := by
  unfold composeDecision composeCharge
  rw [composeTaxType_zero_rate r zeroValueTaxRate rfl,
    composeTaxType_zero_rate r defaultTaxRate rfl]
  simp [zeroValueTaxRate, defaultTaxRate, taxRate.TaxRate]

/-- C10: for a destination whose resolved record has per-state rates
and a supplied state code absent from that table (after uppercasing),
the full decision is identical to the one computed with no state code
at all. -/
theorem C10_unmapped_state_equiv (t : Ctrl) (now : Nat) (cc sc : String)
    (tn : Option String) (r : taxRate) (sts : List (String × taxRate))
    (h1 : getSalesTaxRate t now cc.toUpper = Except.ok r)
    (h2 : r.States = some sts)
    (h3 : lookupRate sts sc.toUpper = none) :
    GetSalesTax t now cc (some sc) tn = GetSalesTax t now cc none tn := by
  have h1' : getSalesTaxRate t now (cc.toUpper).toUpper = Except.ok r := by
    rw [stringToUpper_idem]
    exact h1
  have hcontrib : stateContribution r (some ((sc.toUpper).toUpper)) = 0 := by
    rw [stringToUpper_idem]
    exact stateContribution_zero h2 h3
  have hex : getTaxExchangeStatus t now cc.toUpper (some sc.toUpper) tn =
      getTaxExchangeStatus t now cc.toUpper none tn := by
    rw [getTaxExchangeStatus_spec t now cc.toUpper (some sc.toUpper) tn r h1',
      getTaxExchangeStatus_spec t now cc.toUpper none tn r h1']
    rw [show Option.map String.toUpper (some sc.toUpper)
      = some ((sc.toUpper).toUpper) from rfl]
    rw [hcontrib]
    rw [show Option.map String.toUpper (none : Option String)
      = (none : Option String) from rfl]
    rw [show stateContribution r none = 0 from rfl]
  have hcst : composerStateTax r (some (sc.toUpper)) = zeroValueTaxRate := by
    simp only [composerStateTax, h2, h3, Option.getD_none]
  have hcstd : composerStateTax r none = defaultTaxRate := by
    simp only [composerStateTax, h2]
  unfold GetSalesTax
  rw [show Option.map String.toUpper (some sc) = some (sc.toUpper) from rfl,
    show Option.map String.toUpper (none : Option String)
      = (none : Option String) from rfl]
  rw [hex]
  unfold composerRates
  cases ho : t.OriginCountryCode with
  | some origin =>
    dsimp only
    by_cases hb : (decide (getTargetArea t cc.toUpper = TaxAreaRegional)
        && !t.RegionalTaxEnabled) = true
    · rw [if_pos hb, if_pos hb]
    · rw [if_neg hb, if_neg hb]
      simp only [h1, hcst, hcstd]
      by_cases hP : 0 < r.TaxRate
      · rw [if_pos (Or.inl hP), if_pos (Or.inl hP)]
        cases hE : getTaxExchangeStatus t now cc.toUpper none tn with
        | error e => simp only [hE]
        | ok pr =>
          obtain ⟨ex2, isEx2⟩ := pr
          simp only [hE]
          rw [composeDecision_zero_default]
      · have hnL : ¬(0 < r.TaxRate ∨ 0 < zeroValueTaxRate.TaxRate) := by
          rintro (hx | hx)
          · exact hP hx
          · exact absurd hx (by decide)
        have hnR : ¬(0 < r.TaxRate ∨ 0 < defaultTaxRate.TaxRate) := by
          rintro (hx | hx)
          · exact hP hx
          · exact absurd hx (by decide)
        rw [if_neg hnL, if_neg hnR]
        simp only []
        rw [composeDecision_zero_default]
  | none =>
    dsimp only
    simp only [h1, hcst, hcstd]
    by_cases hP : 0 < r.TaxRate
    · rw [if_pos (Or.inl hP), if_pos (Or.inl hP)]
      cases hE : getTaxExchangeStatus t now cc.toUpper none tn with
      | error e => simp only [hE]
      | ok pr =>
        obtain ⟨ex2, isEx2⟩ := pr
        simp only [hE]
        rw [composeDecision_zero_default]
    · have hnL : ¬(0 < r.TaxRate ∨ 0 < zeroValueTaxRate.TaxRate) := by
        rintro (hx | hx)
        · exact hP hx
        · exact absurd hx (by decide)
      have hnR : ¬(0 < r.TaxRate ∨ 0 < defaultTaxRate.TaxRate) := by
        rintro (hx | hx)
        · exact hP hx
        · exact absurd hx (by decide)
      rw [if_neg hnL, if_neg hnR]
      simp only []
      rw [composeDecision_zero_default]

theorem C10_unmapped_state_equiv_witness :
    GetSalesTax sampleCtrl 0 "CA" (some "ON") none =
      GetSalesTax sampleCtrl 0 "CA" none none :=
  C10_unmapped_state_equiv sampleCtrl 0 "CA" "ON" none gstCA [("QC", qstQC)]
    (by rw [upperCA]; rfl) rfl (by rw [upperON]; rfl)
